import Mathlib

/-!
Verification development for the alpaca-trading-bot backtesting engine.

Shallow embedding of the Python sources:
  - alpaca_trading_bot/models.py      (SimpleMovingAverage.predict)
  - alpaca_trading_bot/backtesting.py (BackTester.run and BackTester._report)

Conventions of the embedding:
  - Python floats (prices, cash) are modelled as rationals so arithmetic is
    exact and decidable; share counts, produced by float floor division, are
    modelled as integers carrying the same values.
  - Calendar timestamps are modelled as natural numbers: every lookup in the
    code first normalizes the timestamp to a fixed hour (hour=5 UTC), so a
    day is fully identified by one value.
  - The multi-indexed price DataFrame is a list of (symbol, day, close) rows;
    absence of a (symbol, day) key is an absent list entry.
  - Python exceptions are an explicit error type.  BackTester.run mutates the
    object before an exception can escape, so the run is modelled as a total
    function returning the final object state together with an optional
    exception, mirroring the state the BackTester instance holds when run()
    either returns or raises.
-/

abbrev Ticker := String

/-- One row of the price table: (symbol, normalized day, close price). -/
abbrev Bar := Ticker × Nat × ℚ

/-- A strategy, as the engine consumes it: the predict method receives the
rows (day-indexed close prices) the engine passes it and returns an integer
decision (1 = buy, -1 = sell, anything else is a no-op). -/
abbrev Strategy := List (Nat × ℚ) → Int

/-- Per-symbol and benchmark cash/share ledger
(the dicts with keys "shares" and "cash" in backtesting.py). -/
structure Ledger where
  shares : ℤ
  cash : ℚ
deriving DecidableEq

/-- Python exceptions that BackTester.run / _report can raise. -/
inductive RunError where
  /-- ValueError("No data found"), backtesting.py line 76;
  the spec calls this DataUnavailableError. -/
  | noData
  /-- ValueError("No SPY data found"), backtesting.py line 99;
  the spec calls this BenchmarkUnavailableError. -/
  | noSpyData
  /-- TypeError raised by the floor division
  self.spy_portfolio["cash"] // initial_spy_close at line 100 when
  initial_spy_close is still None (empty SPY frame: the scan loop body
  never executes). -/
  | typeMismatch
  /-- ZeroDivisionError (starting_money / len(symbols) with an empty symbol
  list at line 61, a floor division by a zero price, or the percentage
  computation in _report with starting_money = 0). -/
  | divByZero
  /-- KeyError from the unguarded benchmark valuation lookup
  spy_data.loc[("SPY", date)] at line 137. -/
  | lookupFailure
  /-- IndexError from self.results["strategy_value"][-1] (or ["spy_value"][-1])
  in _report when the result series is empty; the spec calls this
  EmptyResultError. -/
  | emptyResult
deriving DecidableEq

/-- The close price at key (symbol, day), if that row exists:
data.loc[(symbol, date)]["close"] with (symbol, date) in data.index. -/
def lookupClose (data : List Bar) (s : Ticker) (d : Nat) : Option ℚ :=
  (data.find? (fun r => r.1 == s && r.2.1 == d)).map (fun r => r.2.2)

/-- The close price of a single-instrument table at a day, if present:
spy_data.loc[("SPY", date)]["close"]. -/
def lookupBar (bars : List (Nat × ℚ)) (d : Nat) : Option ℚ :=
  (bars.find? (fun b => b.1 == d)).map (fun b => b.2)

/-- All rows of one symbol, as the engine passes them to the strategy:
data.loc[symbol], keeping (day, close) pairs in table order. -/
def symbolRows (data : List Bar) (s : Ticker) : List (Nat × ℚ) :=
  (data.filter (fun r => r.1 == s)).map (fun r => r.2)

/-! ### SimpleMovingAverage (models.py) -/

/-- Insert a (day, close) pair into a day-sorted list. -/
def insertByDate (p : Nat × ℚ) : List (Nat × ℚ) → List (Nat × ℚ)
  | [] => [p]
  | q :: qs => if p.1 ≤ q.1 then p :: q :: qs else q :: insertByDate p qs

/-- Sort rows by day: data.sort_index() in SimpleMovingAverage.predict. -/
def sortByDate (l : List (Nat × ℚ)) : List (Nat × ℚ) :=
  l.foldr insertByDate []

/-- Last value of data["close"].rolling(window=w, min_periods=1).mean():
the mean of the trailing w closes, or of all of them when fewer than w
exist.  (For an empty series the Python code raises on iloc[-1]; the
engine never calls the strategy on an empty history, and the value here
for [] is the junk value 0/0 = 0.) -/
def smaLast (w : Nat) (closes : List ℚ) : ℚ :=
  let obs := closes.drop (closes.length - w)
  obs.sum / (obs.length : ℚ)

/-- The moving-average-cross strategy of models.py. -/
structure SimpleMovingAverage where
  short_window : Nat
  long_window : Nat

/-- SimpleMovingAverage.predict: sort by day, compare the last short and
long rolling means, emit 1 (buy) when short > long and -1 (sell) otherwise. -/
def SimpleMovingAverage.predict (m : SimpleMovingAverage)
    (rows : List (Nat × ℚ)) : Int :=
  let closes := (sortByDate rows).map Prod.snd
  if smaLast m.short_window closes > smaLast m.long_window closes then 1 else -1

/-- The spec's description of the average (spec section 4.2): a simple moving
average over the trailing window observations, using all available
observations when fewer than the window size exist. -/
def trailingAverage (w : Nat) (closes : List ℚ) : ℚ :=
  let obs := (closes.reverse.take w).reverse
  obs.sum / (obs.length : ℚ)

/-! ### BackTester state and run (backtesting.py) -/

/-- The mutable fields of a BackTester object that run() touches:
self.portfolio, self.spy_portfolio, self.results. -/
structure EngineState where
  portfolio : Ticker → Ledger
  spy : Ledger
  stratVals : List ℚ
  spyVals : List ℚ

/-- The inputs of one backtest.  The price provider is an external
collaborator, so the tables it returns (the traded-symbol rows and the SPY
rows) are inputs, as is the business-day calendar built from the dates. -/
structure RunInput where
  starting_money : ℚ
  symbols : List Ticker
  dateRange : List Nat
  data : List Bar
  spyData : List (Nat × ℚ)

/-- Object state as BackTester.__init__ leaves it: portfolio a defaultdict of
zero ledgers, spy_portfolio fully funded and unbought, results empty. -/
def initSelf (startingMoney : ℚ) : EngineState :=
  { portfolio := fun _ => ⟨0, 0⟩
    spy := ⟨0, startingMoney⟩
    stratVals := []
    spyVals := [] }

/-- The initial-SPY-close scan (backtesting.py lines 89 to 99): starting at
i = 0, probe spy_data at date_range[i] (an out-of-range index raises and is
caught just like a missing key); on failure increment i, raising
ValueError("No SPY data found") once i reaches len(spy_data).  The loop also
stops, leaving the close None, when len(spy_data) = 0.  The fuel argument is
len(spy_data) - i, so the scan probes at most len(spy_data) calendar days. -/
def spyScanAux (spyData : List (Nat × ℚ)) (dateRange : List Nat) :
    Nat → Nat → Except RunError (Option ℚ)
  | _, 0 => Except.ok none
  | i, fuel + 1 =>
    match dateRange[i]? >>= lookupBar spyData with
    | some c => Except.ok (some c)
    | none =>
      if i + 1 = spyData.length then Except.error RunError.noSpyData
      else spyScanAux spyData dateRange (i + 1) fuel

/-- Result of the whole scan loop: the first SPY close found (None when the
SPY frame is empty), or the ValueError when the probes are exhausted. -/
def spyScan (spyData : List (Nat × ℚ)) (dateRange : List Nat) :
    Except RunError (Option ℚ) :=
  spyScanAux spyData dateRange 0 spyData.length

/-- Strategy portfolio valuation after the mutation of one step
(backtesting.py lines 130 to 134): shares times close over the symbols that
have a bar today, plus all cash. -/
def strategyValue (data : List Bar) (symbols : List Ticker)
    (port : Ticker → Ledger) (date : Nat) : ℚ :=
  (symbols.map (fun s =>
    match lookupClose data s date with
    | some c => ((port s).shares : ℚ) * c
    | none => 0)).sum
  + (symbols.map (fun s => (port s).cash)).sum

/-- The ledger mutation of one step (backtesting.py lines 116 to 127):
buy floor(cash / price) shares when the decision is 1 and cash is held,
liquidate everything when the decision is -1 and shares are held, and
otherwise leave the ledger alone. -/
def tradeLedger (decision : Int) (price : ℚ) (led : Ledger) : Ledger :=
  if decision = 1 ∧ led.cash > 0 then
    ⟨led.shares + Rat.floor (led.cash / price),
     led.cash - (Rat.floor (led.cash / price) : ℚ) * price⟩
  else if decision = -1 ∧ led.shares > 0 then
    ⟨0, led.cash + (led.shares : ℚ) * price⟩
  else led

/-- The body of one simulation step after the decision has been computed:
apply the trade (a buy at price zero is the ZeroDivisionError of the
floor division, with the ledger untouched), then value both portfolios and
append; the benchmark valuation lookup is unguarded and aborts the run when
SPY has no bar today, after the trade has been applied and before anything
is appended. -/
def applyStep (data : List Bar) (spyData : List (Nat × ℚ))
    (symbols : List Ticker) (date : Nat) (st : EngineState) (symbol : Ticker)
    (decision : Int) (price : ℚ) : EngineState × Option RunError :=
  if decision = 1 ∧ (st.portfolio symbol).cash > 0 ∧ price = 0 then
    (st, some RunError.divByZero)
  else
    let led' := tradeLedger decision price (st.portfolio symbol)
    let port' := fun s => if s = symbol then led' else st.portfolio s
    let sval := strategyValue data symbols port' date
    match lookupBar spyData date with
    | none => ({ st with portfolio := port' }, some RunError.lookupFailure)
    | some c =>
      ({ st with
          portfolio := port'
          stratVals := st.stratVals ++ [sval]
          spyVals := st.spyVals ++ [(st.spy.shares : ℚ) * c + st.spy.cash] },
       none)

/-- One (day, symbol) iteration of the simulation loop (backtesting.py lines
106 to 144): skip when the symbol has no bar today; otherwise ask the
strategy for a decision on the symbol's FULL fetched history (line 113 passes
data.loc[symbol], not a truncation) and run the step body. -/
def stepSymbol (strategy : Strategy) (data : List Bar)
    (spyData : List (Nat × ℚ)) (symbols : List Ticker) (date : Nat)
    (st : EngineState) (symbol : Ticker) : EngineState × Option RunError :=
  match lookupClose data symbol date with
  | none => (st, none)
  | some price =>
    applyStep data spyData symbols date st symbol
      (strategy (symbolRows data symbol)) price

/-- Loop threading: a raised exception aborts the remaining iterations,
leaving the object state as the failing step left it. -/
def stepPair (strategy : Strategy) (data : List Bar)
    (spyData : List (Nat × ℚ)) (symbols : List Ticker)
    (acc : EngineState × Option RunError) (p : Nat × Ticker) :
    EngineState × Option RunError :=
  match acc.2 with
  | some _ => acc
  | none => stepSymbol strategy data spyData symbols p.1 acc.1 p.2

/-- Everything BackTester.run does before the simulation loop, in code
order: the even cash split (a ZeroDivisionError when symbols is empty), the
empty-data check, the SPY scan, and the one-time benchmark purchase of
floor(cash / close) shares with the remainder kept as cash.  A None scan
result reaches the floor division as a TypeError. -/
def initState (inp : RunInput) : EngineState × Option RunError :=
  match inp.symbols with
  | [] => (initSelf inp.starting_money, some RunError.divByZero)
  | _ :: _ =>
    let st1 : EngineState :=
      { initSelf inp.starting_money with
        portfolio := fun s =>
          if s ∈ inp.symbols then
            ⟨0, inp.starting_money / (inp.symbols.length : ℚ)⟩
          else ⟨0, 0⟩ }
    match inp.data with
    | [] => (st1, some RunError.noData)
    | _ :: _ =>
      match spyScan inp.spyData inp.dateRange with
      | Except.error e => (st1, some e)
      | Except.ok none => (st1, some RunError.typeMismatch)
      | Except.ok (some c0) =>
        if c0 = 0 then (st1, some RunError.divByZero)
        else
          ({ st1 with
              spy := ⟨Rat.floor (inp.starting_money / c0),
                      inp.starting_money
                        - (Rat.floor (inp.starting_money / c0) : ℚ) * c0⟩ },
           none)

/-- The (date, symbol) pairs the nested loop iterates, in order
(lines 104 and 106). -/
def allSteps (inp : RunInput) : List (Nat × Ticker) :=
  inp.dateRange.flatMap (fun d => inp.symbols.map (fun s => (d, s)))

/-- BackTester.run up to the end of the simulation loop, iterating the given
(date, symbol) pairs; run itself iterates allSteps. -/
def runSteps (strategy : Strategy) (inp : RunInput)
    (steps : List (Nat × Ticker)) : EngineState × Option RunError :=
  let init := initState inp
  match init.2 with
  | some _ => init
  | none => steps.foldl
      (stepPair strategy inp.data inp.spyData inp.symbols) init

/-- The summary _report logs: initial and final value and percentage change
for the strategy and for the benchmark. -/
structure Summary where
  initialValue : ℚ
  finalValue : ℚ
  changePct : ℚ
  spyInitialValue : ℚ
  spyFinalValue : ℚ
  spyChangePct : ℚ
deriving DecidableEq

/-- BackTester._report (lines 148 to 165): read the last element of each
result series (an IndexError on an empty series), then compute the
percentage changes (a ZeroDivisionError when starting_money is 0). -/
def report (startingMoney : ℚ) (st : EngineState) : Except RunError Summary :=
  match st.stratVals.getLast?, st.spyVals.getLast? with
  | some f, some sf =>
    if startingMoney = 0 then Except.error RunError.divByZero
    else Except.ok
      ⟨startingMoney, f, (f - startingMoney) / startingMoney * 100,
       startingMoney, sf, (sf - startingMoney) / startingMoney * 100⟩
  | _, _ => Except.error RunError.emptyResult

/-- BackTester.run in full: the simulation over all (day, symbol) pairs,
then _report; the returned pair is the final object state and the exception
run() raises, if any. -/
def run (strategy : Strategy) (inp : RunInput) :
    EngineState × Option RunError :=
  let r := runSteps strategy inp (allSteps inp)
  match r.2 with
  | some _ => r
  | none =>
    match report inp.starting_money r.1 with
    | Except.ok _ => r
    | Except.error e => (r.1, some e)

/-! ### The spec-side no-lookahead engine -/

/-- Modelled from the spec (section 4.1 step 5, strict no-lookahead): the
same step as stepSymbol, except that the strategy receives only the bars
dated at or before the current day.  This is the refinement comparison
point for the truncation the spec describes; the code itself passes the
full history. -/
def stepSymbolSpec (strategy : Strategy) (data : List Bar)
    (spyData : List (Nat × ℚ)) (symbols : List Ticker) (date : Nat)
    (st : EngineState) (symbol : Ticker) : EngineState × Option RunError :=
  match lookupClose data symbol date with
  | none => (st, none)
  | some price =>
    applyStep data spyData symbols date st symbol
      (strategy ((symbolRows data symbol).filter (fun r => r.1 ≤ date))) price

/-- Loop threading for the spec-side engine. -/
def stepPairSpec (strategy : Strategy) (data : List Bar)
    (spyData : List (Nat × ℚ)) (symbols : List Ticker)
    (acc : EngineState × Option RunError) (p : Nat × Ticker) :
    EngineState × Option RunError :=
  match acc.2 with
  | some _ => acc
  | none => stepSymbolSpec strategy data spyData symbols p.1 acc.1 p.2

/-- Modelled from the spec: the run of section 4.1 with the strict
no-lookahead decision of step 5, otherwise identical to runSteps. -/
def runStepsSpec (strategy : Strategy) (inp : RunInput)
    (steps : List (Nat × Ticker)) : EngineState × Option RunError :=
  let init := initState inp
  match init.2 with
  | some _ => init
  | none => steps.foldl
      (stepPairSpec strategy inp.data inp.spyData inp.symbols) init

/-! ### Concrete strategies and inputs used by the claims -/

/-- MovingAverageCrossStrategy(short=1, long=2) of the spec's concrete
scenario. -/
def sma12 : SimpleMovingAverage := ⟨1, 2⟩

/-- The sma12 strategy as the engine consumes it. -/
def smaStrat : Strategy := sma12.predict

/-- A strategy that always holds (decision 0). -/
def holdStrategy : Strategy := fun _ => 0

/-- A strategy that always buys (decision 1). -/
def buyStrategy : Strategy := fun _ => 1

/-- The spec's concrete scenario: starting cash 10000, one symbol AAPL with
closes 100, 110, 90 on three consecutive business days, with a flat SPY
series so that the benchmark part of the run completes. -/
def inpA : RunInput :=
  ⟨10000, ["AAPL"], [0, 1, 2],
   [("AAPL", 0, 100), ("AAPL", 1, 110), ("AAPL", 2, 90)],
   [(0, 100), (1, 100), (2, 100)]⟩

/-- The same scenario with only the day-2 close changed (90 becomes 200):
all bars dated at or before day 1 coincide with inpA. -/
def inpB : RunInput :=
  ⟨10000, ["AAPL"], [0, 1, 2],
   [("AAPL", 0, 100), ("AAPL", 1, 110), ("AAPL", 2, 200)],
   [(0, 100), (1, 100), (2, 100)]⟩

/-- A run input whose SPY table has zero rows. -/
def inpSpyEmpty : RunInput := ⟨10000, ["AAPL"], [0], [("AAPL", 0, 100)], []⟩

/-- A run input whose single SPY row is dated outside the calendar. -/
def inpScanFail : RunInput :=
  ⟨10000, ["AAPL"], [0], [("AAPL", 0, 100)], [(7, 50)]⟩

/-- A run input with no symbols at all (and so no data rows either). -/
def inpNoSymbols : RunInput := ⟨10000, [], [], [], []⟩

/-- A run input with one symbol and no price rows. -/
def inpNoRows : RunInput := ⟨10000, ["AAPL"], [0], [], []⟩

/-- A run input whose benchmark has a bar on day 0 but not on day 1, while
the traded symbol has bars on both days. -/
def inpGap : RunInput :=
  ⟨10050, ["AAPL"], [0, 1], [("AAPL", 0, 100), ("AAPL", 1, 25)], [(0, 100)]⟩

/-- The (day, symbol) pairs of the loop that actually have a bar: the
simulation steps of the spec's glossary. -/
def barSteps (data : List Bar) (steps : List (Nat × Ticker)) :
    List (Nat × Ticker) :=
  steps.filter (fun p => (lookupClose data p.2 p.1).isSome)

/-- Non-negativity of one ledger: the SymbolLedger invariant of the spec. -/
def LedgerOk (l : Ledger) : Prop := 0 ≤ l.cash ∧ 0 ≤ l.shares

/-- Non-negativity of every symbol ledger of a state. -/
def PortOk (st : EngineState) : Prop := ∀ s, LedgerOk (st.portfolio s)

/-! ### Helper lemmas -/

/-- The two windowing formulations coincide: dropping all but the last w
elements is taking w from the reversed list, reversed back. -/
theorem smaLast_eq_trailingAverage (w : Nat) (closes : List ℚ) :
    smaLast w closes = trailingAverage w closes := by
  unfold smaLast trailingAverage
  rw [List.take_reverse, List.reverse_reverse]

/-- A close price found in the table is a close price of some row. -/
theorem lookupClose_mem (data : List Bar) (s : Ticker) (d : Nat) (p : ℚ)
    (h : lookupClose data s d = some p) : ∃ r ∈ data, r.2.2 = p := by
  unfold lookupClose at h
  cases hf : data.find? (fun r => r.1 == s && r.2.1 == d) with
  | none => rw [hf] at h; simp at h
  | some r =>
    rw [hf] at h
    simp only [Option.map_some', Option.some.injEq] at h
    exact ⟨r, List.mem_of_find?_eq_some hf, h⟩

/-- In a table of positive closes, every successful lookup is positive. -/
theorem lookupClose_pos (data : List Bar) (s : Ticker) (d : Nat) (p : ℚ)
    (hpos : ∀ r ∈ data, 0 < r.2.2) (h : lookupClose data s d = some p) :
    0 < p := by
  obtain ⟨r, hr, hrp⟩ := lookupClose_mem data s d p h
  exact hrp ▸ hpos r hr

/-- Buying floor(cash / price) shares at a positive price from positive cash
leaves a non-negative cash remainder. -/
theorem buy_cash_nonneg (cash price : ℚ) (hc : 0 < cash) (hp : 0 < price) :
    0 ≤ cash - (Rat.floor (cash / price) : ℚ) * price := by
  have hfl : Rat.floor (cash / price) = ⌊cash / price⌋ := rfl
  have h1 : ((⌊cash / price⌋ : ℤ) : ℚ) ≤ cash / price := Int.floor_le _
  have h2 : ((⌊cash / price⌋ : ℤ) : ℚ) * price ≤ cash / price * price :=
    mul_le_mul_of_nonneg_right h1 hp.le
  rw [div_mul_cancel₀ _ hp.ne'] at h2
  rw [hfl]
  linarith

/-- The purchased share count floor(cash / price) is non-negative when cash
and price are positive. -/
theorem buy_shares_nonneg (cash price : ℚ) (hc : 0 < cash) (hp : 0 < price) :
    0 ≤ Rat.floor (cash / price) := by
  have hfl : Rat.floor (cash / price) = ⌊cash / price⌋ := rfl
  rw [hfl]
  exact Int.floor_nonneg.mpr (div_pos hc hp).le

/-- At a positive price, the trade of one step keeps cash and shares
non-negative: a buy spends floor(cash / price) * price which is at most the
cash held, and a sell only zeroes shares and adds their value to cash. -/
theorem tradeLedger_ok (decision : Int) (price : ℚ) (led : Ledger)
    (hp : 0 < price) (hled : LedgerOk led) :
    LedgerOk (tradeLedger decision price led) := by
  unfold tradeLedger
  split_ifs with h1 h2
  · exact ⟨buy_cash_nonneg _ _ h1.2 hp,
      add_nonneg hled.2 (buy_shares_nonneg _ _ h1.2 hp)⟩
  · refine ⟨add_nonneg hled.1 (mul_nonneg ?_ hp.le), le_refl 0⟩
    exact_mod_cast h2.2.le
  · exact hled

/-- The portfolio function applyStep leaves in the state: unchanged on the
zero-price-buy abort, else the stepped symbol's ledger replaced by its
traded ledger. -/
theorem applyStep_portfolio (data : List Bar) (spyData : List (Nat × ℚ))
    (symbols : List Ticker) (date : Nat) (st : EngineState) (symbol : Ticker)
    (decision : Int) (price : ℚ) :
    (applyStep data spyData symbols date st symbol decision price).1.portfolio =
      if decision = 1 ∧ (st.portfolio symbol).cash > 0 ∧ price = 0 then
        st.portfolio
      else fun s =>
        if s = symbol then tradeLedger decision price (st.portfolio symbol)
        else st.portfolio s := by
  unfold applyStep
  split
  · rfl
  · cases hlb : lookupBar spyData date <;> rfl

/-- applyStep never touches the benchmark ledger. -/
theorem applyStep_spy (data : List Bar) (spyData : List (Nat × ℚ))
    (symbols : List Ticker) (date : Nat) (st : EngineState) (symbol : Ticker)
    (decision : Int) (price : ℚ) :
    (applyStep data spyData symbols date st symbol decision price).1.spy =
      st.spy := by
  unfold applyStep
  split
  · rfl
  · cases hlb : lookupBar spyData date <;> rfl

/-- One simulation step never touches the benchmark ledger. -/
theorem stepSymbol_spy (strategy : Strategy) (data : List Bar)
    (spyData : List (Nat × ℚ)) (symbols : List Ticker) (date : Nat)
    (st : EngineState) (symbol : Ticker) :
    (stepSymbol strategy data spyData symbols date st symbol).1.spy =
      st.spy := by
  unfold stepSymbol
  cases hlc : lookupClose data symbol date with
  | none => rfl
  | some price => exact applyStep_spy _ _ _ _ _ _ _ _

/-- One simulation step keeps every symbol ledger non-negative, given
positive close prices. -/
theorem stepSymbol_portOk (strategy : Strategy) (data : List Bar)
    (spyData : List (Nat × ℚ)) (symbols : List Ticker) (date : Nat)
    (st : EngineState) (symbol : Ticker)
    (hpos : ∀ r ∈ data, 0 < r.2.2) (hst : PortOk st) :
    PortOk (stepSymbol strategy data spyData symbols date st symbol).1 := by
  unfold stepSymbol
  cases hlc : lookupClose data symbol date with
  | none => exact hst
  | some price =>
    have hp : 0 < price := lookupClose_pos data symbol date price hpos hlc
    intro s
    rw [applyStep_portfolio]
    by_cases h0 : strategy (symbolRows data symbol) = 1 ∧
        (st.portfolio symbol).cash > 0 ∧ price = 0
    · simp only [if_pos h0]; exact hst s
    · simp only [if_neg h0]
      by_cases hs : s = symbol
      · simp only [if_pos hs]; exact tradeLedger_ok _ _ _ hp (hst symbol)
      · simp only [if_neg hs]; exact hst s

/-- Folding any number of loop iterations never touches the benchmark
ledger. -/
theorem foldPairs_spy (strategy : Strategy) (data : List Bar)
    (spyData : List (Nat × ℚ)) (symbols : List Ticker)
    (steps : List (Nat × Ticker)) (acc : EngineState × Option RunError) :
    (steps.foldl (stepPair strategy data spyData symbols) acc).1.spy =
      acc.1.spy := by
  induction steps generalizing acc with
  | nil => rfl
  | cons p rest ih =>
    rw [List.foldl_cons, ih]
    unfold stepPair
    cases hacc : acc.2 with
    | some e => rfl
    | none => exact stepSymbol_spy _ _ _ _ _ _ _

/-- Folding any number of loop iterations keeps every symbol ledger
non-negative, given positive close prices. -/
theorem foldPairs_portOk (strategy : Strategy) (data : List Bar)
    (spyData : List (Nat × ℚ)) (symbols : List Ticker)
    (steps : List (Nat × Ticker)) (acc : EngineState × Option RunError)
    (hpos : ∀ r ∈ data, 0 < r.2.2) (hacc : PortOk acc.1) :
    PortOk (steps.foldl (stepPair strategy data spyData symbols) acc).1 := by
  induction steps generalizing acc with
  | nil => exact hacc
  | cons p rest ih =>
    rw [List.foldl_cons]
    apply ih
    unfold stepPair
    cases h2 : acc.2 with
    | some e => exact hacc
    | none => exact stepSymbol_portOk _ _ _ _ _ _ _ hpos hacc

/-- Whatever branch initialization takes, the portfolio it leaves is either
the defaultdict of zero ledgers or the even split over the symbols. -/
theorem initState_portfolio (inp : RunInput) :
    (initState inp).1.portfolio = (fun _ => (⟨0, 0⟩ : Ledger)) ∨
    (initState inp).1.portfolio = fun s =>
      if s ∈ inp.symbols then
        ⟨0, inp.starting_money / (inp.symbols.length : ℚ)⟩
      else ⟨0, 0⟩ := by
  obtain ⟨sm, syms, dr, dat, spd⟩ := inp
  cases syms with
  | nil => left; rfl
  | cons a l =>
    cases dat with
    | nil => right; rfl
    | cons b m =>
      dsimp only [initState]
      cases hscan : spyScan spd dr with
      | error e => right; rfl
      | ok oc =>
        cases oc with
        | none => right; rfl
        | some c0 =>
          by_cases hc0 : c0 = 0
          · simp only [if_pos hc0]; right; trivial
          · simp only [if_neg hc0]; right; trivial

/-- Initialization leaves every symbol ledger non-negative when the starting
cash is non-negative. -/
theorem initState_portOk (inp : RunInput) (h0 : 0 ≤ inp.starting_money) :
    PortOk (initState inp).1 := by
  have hcash : 0 ≤ inp.starting_money / (inp.symbols.length : ℚ) :=
    div_nonneg h0 (Nat.cast_nonneg _)
  intro s
  rcases initState_portfolio inp with h | h <;> rw [h]
  · exact ⟨le_refl 0, le_refl 0⟩
  · by_cases hs : s ∈ inp.symbols
    · simp only [if_pos hs]; exact ⟨hcash, le_refl 0⟩
    · simp only [if_neg hs]; exact ⟨le_refl 0, le_refl 0⟩

/-- When initialization succeeds with first benchmark close c0, it performs
exactly the one-time purchase of floor(cash / c0) shares with the cost
deducted. -/
theorem initState_ok_spy (inp : RunInput) (c0 : ℚ)
    (hsym : inp.symbols ≠ []) (hdata : inp.data ≠ [])
    (hscan : spyScan inp.spyData inp.dateRange = Except.ok (some c0))
    (hc0 : c0 ≠ 0) :
    (initState inp).2 = none ∧
    (initState inp).1.spy =
      ⟨Rat.floor (inp.starting_money / c0),
       inp.starting_money - (Rat.floor (inp.starting_money / c0) : ℚ) * c0⟩ := by
  obtain ⟨sm, syms, dr, dat, spd⟩ := inp
  cases syms with
  | nil => simp at hsym
  | cons a l =>
    cases dat with
    | nil => simp at hdata
    | cons b m =>
      dsimp only [initState]
      dsimp only at hscan
      rw [hscan]
      simp only [if_neg hc0]
      exact ⟨trivial, trivial⟩

/-- C3: in every run over positive close prices (funded with non-negative
starting cash), after any number of simulation steps every symbol ledger
has non-negative cash and non-negative shares: a buy buys
floor(cash / price) shares and spends at most the cash held, and a sell
liquidates exactly the shares held. -/
theorem backtest_ledgers_nonneg (strategy : Strategy) (inp : RunInput)
    (steps : List (Nat × Ticker)) (s : Ticker)
    (h0 : 0 ≤ inp.starting_money) (hpos : ∀ r ∈ inp.data, 0 < r.2.2) :
    0 ≤ ((runSteps strategy inp steps).1.portfolio s).cash ∧
    0 ≤ ((runSteps strategy inp steps).1.portfolio s).shares := by
  have hinit : PortOk (initState inp).1 := initState_portOk inp h0
  simp only [runSteps]
  cases h2 : (initState inp).2 with
  | some e => exact hinit s
  | none => exact foldPairs_portOk _ _ _ _ _ _ hpos hinit s

unseal Rat.add Rat.sub Rat.mul Rat.inv in
/-- Witness for C3: the invariant evaluated after the first simulation step
of the concrete scenario. -/
theorem backtest_ledgers_nonneg_witness :
    ((0:ℚ) ≤ inpA.starting_money ∧ ∀ r ∈ inpA.data, 0 < r.2.2) ∧
    0 ≤ ((runSteps smaStrat inpA [(0, "AAPL")]).1.portfolio "AAPL").cash ∧
    0 ≤ ((runSteps smaStrat inpA [(0, "AAPL")]).1.portfolio "AAPL").shares :=
  ⟨⟨by decide, by decide⟩,
   backtest_ledgers_nonneg smaStrat inpA [(0, "AAPL")] "AAPL"
     (by decide) (by decide)⟩

/-- C4: the benchmark is purchased exactly once.  When the scan finds a
first benchmark close c0, initialization buys floor(benchmarkCash / c0)
shares, deducts their cost and keeps the remainder as cash, and after any
number of simulation steps the benchmark ledger, and so its share count at
every valuation point, is still exactly that post-purchase ledger. -/
theorem benchmark_purchased_once (strategy : Strategy) (inp : RunInput)
    (steps : List (Nat × Ticker)) (c0 : ℚ)
    (hsym : inp.symbols ≠ []) (hdata : inp.data ≠ [])
    (hscan : spyScan inp.spyData inp.dateRange = Except.ok (some c0))
    (hc0 : c0 ≠ 0) :
    (runSteps strategy inp steps).1.spy =
      ⟨Rat.floor (inp.starting_money / c0),
       inp.starting_money - (Rat.floor (inp.starting_money / c0) : ℚ) * c0⟩ := by
  obtain ⟨hok, hspy⟩ := initState_ok_spy inp c0 hsym hdata hscan hc0
  simp only [runSteps]
  cases hi : (initState inp).2 with
  | some e => rw [hi] at hok; cases hok
  | none => rw [foldPairs_spy]; exact hspy

unseal Rat.add Rat.sub Rat.mul Rat.inv in
/-- Witness for C4: the benchmark ledger of the concrete scenario is the
one-time purchase of 100 shares at close 100 with zero cash left, across
the whole run. -/
theorem benchmark_purchased_once_witness :
    (inpA.symbols ≠ [] ∧ inpA.data ≠ [] ∧
      spyScan inpA.spyData inpA.dateRange = Except.ok (some 100) ∧
      (100 : ℚ) ≠ 0) ∧
    (runSteps smaStrat inpA (allSteps inpA)).1.spy =
      ⟨Rat.floor (inpA.starting_money / 100),
       inpA.starting_money - (Rat.floor (inpA.starting_money / 100) : ℚ) * 100⟩ :=
  ⟨⟨by decide, by decide, by rfl, by decide⟩,
   benchmark_purchased_once smaStrat inpA (allSteps inpA) 100
     (by decide) (by decide) (by rfl) (by decide)⟩

/-- C7: on any non-empty price history (with the positive windows pandas
accepts), predict returns BUY (1) exactly when the trailing short-window
simple moving average strictly exceeds the trailing long-window one — each
average over all available observations when fewer than the window exist —
and SELL (-1) in every other case; HOLD (0) is never returned.  Determinism
is immediate: the embedding is a pure function of the history. -/
theorem sma_predict_matches_spec (m : SimpleMovingAverage)
    (rows : List (Nat × ℚ)) (hrows : rows ≠ [])
    (hs : 1 ≤ m.short_window) (hl : 1 ≤ m.long_window) :
    (m.predict rows = 1 ↔
      trailingAverage m.short_window ((sortByDate rows).map Prod.snd) >
        trailingAverage m.long_window ((sortByDate rows).map Prod.snd)) ∧
    (m.predict rows = 1 ∨ m.predict rows = -1) ∧
    m.predict rows ≠ 0 := by
  simp only [SimpleMovingAverage.predict]
  rw [smaLast_eq_trailingAverage, smaLast_eq_trailingAverage]
  by_cases h : trailingAverage m.short_window ((sortByDate rows).map Prod.snd) >
      trailingAverage m.long_window ((sortByDate rows).map Prod.snd)
  · rw [if_pos h]
    exact ⟨⟨fun _ => h, fun _ => rfl⟩, Or.inl rfl, by decide⟩
  · rw [if_neg h]
    exact ⟨⟨fun hc => absurd hc (by decide), fun hc => absurd hc h⟩,
      Or.inr rfl, by decide⟩

unseal Rat.add Rat.sub Rat.mul Rat.inv in
/-- Witness for C7: the two-day history of the concrete scenario under
MovingAverageCrossStrategy(1, 2): short average 110 exceeds long average
105, so predict buys. -/
theorem sma_predict_matches_spec_witness :
    (([((0:Nat), (100:ℚ)), (1, 110)] : List (Nat × ℚ)) ≠ [] ∧
      1 ≤ sma12.short_window ∧ 1 ≤ sma12.long_window) ∧
    ((sma12.predict [(0, 100), (1, 110)] = 1 ↔
      trailingAverage sma12.short_window
          ((sortByDate [(0, 100), (1, 110)]).map Prod.snd) >
        trailingAverage sma12.long_window
          ((sortByDate [(0, 100), (1, 110)]).map Prod.snd)) ∧
    (sma12.predict [(0, 100), (1, 110)] = 1 ∨
      sma12.predict [(0, 100), (1, 110)] = -1) ∧
    sma12.predict [(0, 100), (1, 110)] ≠ 0) :=
  ⟨⟨by decide, by decide, by decide⟩,
   sma_predict_matches_spec sma12 [(0, 100), (1, 110)]
     (by decide) (by decide) (by decide)⟩

/-- C8: a run that completes its simulation loop with an empty result series
fails at reporting time with the empty-result IndexError, and the reporter
never produces a summary from an empty series. -/
theorem report_empty_series_fails (strategy : Strategy) (inp : RunInput)
    (hok : (runSteps strategy inp (allSteps inp)).2 = none)
    (hempty : (runSteps strategy inp (allSteps inp)).1.stratVals = []) :
    (run strategy inp).2 = some RunError.emptyResult ∧
    ∀ sm, report inp.starting_money
        (runSteps strategy inp (allSteps inp)).1 ≠ Except.ok sm := by
  have hrep : report inp.starting_money
      (runSteps strategy inp (allSteps inp)).1 =
      Except.error RunError.emptyResult := by
    unfold report
    rw [hempty]
    cases hsp : (runSteps strategy inp (allSteps inp)).1.spyVals.getLast? <;> rfl
  constructor
  · simp only [run]
    rw [hok, hrep]
  · intro sm hcon
    rw [hrep] at hcon
    cases hcon

unseal Rat.add Rat.sub Rat.mul Rat.inv in
/-- Witness for C8: one business day, a traded bar dated outside the
calendar, a benchmark bar on the calendar: the loop completes with zero
valuation points and reporting fails. -/
theorem report_empty_series_fails_witness :
    ((runSteps smaStrat ⟨10000, ["AAPL"], [0], [("AAPL", 5, 100)],
        [(0, 100)]⟩ (allSteps ⟨10000, ["AAPL"], [0], [("AAPL", 5, 100)],
        [(0, 100)]⟩)).2 = none ∧
      (runSteps smaStrat ⟨10000, ["AAPL"], [0], [("AAPL", 5, 100)],
        [(0, 100)]⟩ (allSteps ⟨10000, ["AAPL"], [0], [("AAPL", 5, 100)],
        [(0, 100)]⟩)).1.stratVals = []) ∧
    (run smaStrat ⟨10000, ["AAPL"], [0], [("AAPL", 5, 100)],
        [(0, 100)]⟩).2 = some RunError.emptyResult :=
  ⟨⟨by rfl, by rfl⟩,
   (report_empty_series_fails smaStrat
     ⟨10000, ["AAPL"], [0], [("AAPL", 5, 100)], [(0, 100)]⟩
     (by rfl) (by rfl)).1⟩

/-- A raised exception persists: once the accumulator carries an error, the
remaining iterations change nothing. -/
theorem foldPairs_err (strategy : Strategy) (data : List Bar)
    (spyData : List (Nat × ℚ)) (symbols : List Ticker)
    (steps : List (Nat × Ticker)) (st : EngineState) (e : RunError) :
    steps.foldl (stepPair strategy data spyData symbols) (st, some e) =
      (st, some e) := by
  induction steps with
  | nil => rfl
  | cons p rest ih => rw [List.foldl_cons]; exact ih

/-- When initialization raises, the whole loop is skipped. -/
theorem runSteps_of_initErr (strategy : Strategy) (inp : RunInput)
    (steps : List (Nat × Ticker)) (e : RunError)
    (h : (initState inp).2 = some e) :
    runSteps strategy inp steps = initState inp := by
  simp only [runSteps]
  rw [h]

/-- When initialization succeeds, the run is the loop folded from the
initialized state. -/
theorem runSteps_of_initOk (strategy : Strategy) (inp : RunInput)
    (steps : List (Nat × Ticker)) (h : (initState inp).2 = none) :
    runSteps strategy inp steps =
      steps.foldl (stepPair strategy inp.data inp.spyData inp.symbols)
        (initState inp) := by
  simp only [runSteps]
  rw [h]

/-- When initialization succeeds, the state it leaves is the even split with
empty result series. -/
theorem initState_ok_shape (inp : RunInput)
    (hok : (initState inp).2 = none) :
    (initState inp).1.portfolio = (fun s =>
      if s ∈ inp.symbols then
        ⟨0, inp.starting_money / (inp.symbols.length : ℚ)⟩
      else ⟨0, 0⟩) ∧
    (initState inp).1.stratVals = [] ∧ (initState inp).1.spyVals = [] := by
  obtain ⟨sm, syms, dr, dat, spd⟩ := inp
  cases syms with
  | nil => exact Option.noConfusion hok
  | cons a l =>
    cases dat with
    | nil => exact Option.noConfusion hok
    | cons b m =>
      dsimp only [initState] at hok ⊢
      cases hscan : spyScan spd dr with
      | error e => rw [hscan] at hok; exact Option.noConfusion hok
      | ok oc =>
        rw [hscan] at hok
        cases oc with
        | none => exact Option.noConfusion hok
        | some c0 =>
          dsimp only at hok ⊢
          by_cases hc0 : c0 = 0
          · rw [if_pos hc0] at hok; exact Option.noConfusion hok
          · rw [if_neg hc0]; exact ⟨rfl, rfl, rfl⟩

/-- The hold decision 0 trades nothing. -/
theorem tradeLedger_zero (price : ℚ) (led : Ledger) :
    tradeLedger 0 price led = led := by
  unfold tradeLedger
  rw [if_neg (fun h => absurd h.1 (by decide)),
     if_neg (fun h => absurd h.1 (by decide))]

/-- Under the always-hold strategy, a simulation step leaves every symbol
ledger untouched. -/
theorem stepSymbol_hold_portfolio (data : List Bar)
    (spyData : List (Nat × ℚ)) (symbols : List Ticker) (date : Nat)
    (st : EngineState) (symbol : Ticker) (s : Ticker) :
    (stepSymbol holdStrategy data spyData symbols date st symbol).1.portfolio
      s = st.portfolio s := by
  unfold stepSymbol
  cases hlc : lookupClose data symbol date with
  | none => rfl
  | some price =>
    rw [applyStep_portfolio]
    have hdec : holdStrategy (symbolRows data symbol) = 0 := rfl
    rw [hdec]
    rw [if_neg (fun h => absurd h.1 (by decide))]
    by_cases hs : s = symbol
    · rw [if_pos hs, tradeLedger_zero, hs]
    · rw [if_neg hs]

/-- Under the always-hold strategy, the whole loop leaves every symbol
ledger untouched. -/
theorem foldPairs_hold_portfolio (data : List Bar)
    (spyData : List (Nat × ℚ)) (symbols : List Ticker)
    (steps : List (Nat × Ticker)) (acc : EngineState × Option RunError)
    (s : Ticker) :
    ((steps.foldl (stepPair holdStrategy data spyData symbols)
        acc).1.portfolio) s = acc.1.portfolio s := by
  induction steps generalizing acc with
  | nil => rfl
  | cons p rest ih =>
    rw [List.foldl_cons, ih]
    unfold stepPair
    cases h2 : acc.2 with
    | some e => rfl
    | none => exact stepSymbol_hold_portfolio _ _ _ _ _ _ _

/-- Shape of a successful step body: trade applied, both valuations
appended. -/
theorem applyStep_ok (data : List Bar) (spyData : List (Nat × ℚ))
    (symbols : List Ticker) (date : Nat) (st : EngineState) (symbol : Ticker)
    (decision : Int) (price : ℚ) (c : ℚ)
    (h0 : ¬(decision = 1 ∧ (st.portfolio symbol).cash > 0 ∧ price = 0))
    (hc : lookupBar spyData date = some c) :
    applyStep data spyData symbols date st symbol decision price =
      ({ st with
          portfolio := fun s =>
            if s = symbol then tradeLedger decision price (st.portfolio symbol)
            else st.portfolio s
          stratVals := st.stratVals ++
            [strategyValue data symbols (fun s =>
              if s = symbol then tradeLedger decision price (st.portfolio symbol)
              else st.portfolio s) date]
          spyVals := st.spyVals ++
            [(st.spy.shares : ℚ) * c + st.spy.cash] }, none) := by
  unfold applyStep
  rw [if_neg h0, hc]

/-- Shape of a step body aborted by the benchmark valuation KeyError: trade
applied, nothing appended. -/
theorem applyStep_keyErr (data : List Bar) (spyData : List (Nat × ℚ))
    (symbols : List Ticker) (date : Nat) (st : EngineState) (symbol : Ticker)
    (decision : Int) (price : ℚ)
    (h0 : ¬(decision = 1 ∧ (st.portfolio symbol).cash > 0 ∧ price = 0))
    (hc : lookupBar spyData date = none) :
    applyStep data spyData symbols date st symbol decision price =
      ({ st with
          portfolio := fun s =>
            if s = symbol then tradeLedger decision price (st.portfolio symbol)
            else st.portfolio s }, some RunError.lookupFailure) := by
  unfold applyStep
  rw [if_neg h0, hc]

/-- A completed loop appends one benchmark valuation, equal to benchmark
shares times that day's benchmark close plus benchmark cash, for exactly
each (day, symbol) step that had a bar. -/
theorem foldPairs_spyVals (strategy : Strategy) (data : List Bar)
    (spyData : List (Nat × ℚ)) (symbols : List Ticker)
    (steps : List (Nat × Ticker)) (acc : EngineState × Option RunError)
    (hacc : acc.2 = none)
    (hfin : (steps.foldl (stepPair strategy data spyData symbols) acc).2 =
      none) :
    (steps.foldl (stepPair strategy data spyData symbols) acc).1.spyVals =
      acc.1.spyVals ++ (barSteps data steps).map (fun p =>
        (acc.1.spy.shares : ℚ) * (lookupBar spyData p.1).getD 0 +
          acc.1.spy.cash) := by
  induction steps generalizing acc with
  | nil => simp [barSteps]
  | cons p rest ih =>
    obtain ⟨st, e⟩ := acc
    cases e with
    | some e => exact Option.noConfusion hacc
    | none =>
      rw [List.foldl_cons] at hfin ⊢
      have hsp : stepPair strategy data spyData symbols (st, none) p =
          stepSymbol strategy data spyData symbols p.1 st p.2 := rfl
      rw [hsp] at hfin ⊢
      unfold stepSymbol at hfin ⊢
      cases hlc : lookupClose data p.2 p.1 with
      | none =>
        rw [hlc] at hfin
        dsimp only at hfin ⊢
        rw [ih (st, none) rfl hfin]
        have hbs : barSteps data (p :: rest) = barSteps data rest := by
          unfold barSteps
          rw [List.filter_cons, hlc]
          simp
        rw [hbs]
      | some price =>
        rw [hlc] at hfin
        dsimp only at hfin ⊢
        have hbs : barSteps data (p :: rest) = p :: barSteps data rest := by
          unfold barSteps
          rw [List.filter_cons, hlc]
          simp
        by_cases h0 : strategy (symbolRows data p.2) = 1 ∧
            (st.portfolio p.2).cash > 0 ∧ price = 0
        · exfalso
          have habort : applyStep data spyData symbols p.1 st p.2
              (strategy (symbolRows data p.2)) price =
              (st, some RunError.divByZero) := by
            unfold applyStep
            rw [if_pos h0]
          rw [habort, foldPairs_err] at hfin
          exact Option.noConfusion hfin
        · cases hlb : lookupBar spyData p.1 with
          | none =>
            exfalso
            rw [applyStep_keyErr data spyData symbols p.1 st p.2 _ price h0
              hlb, foldPairs_err] at hfin
            exact Option.noConfusion hfin
          | some c =>
            rw [applyStep_ok data spyData symbols p.1 st p.2 _ price c h0 hlb]
              at hfin ⊢
            rw [ih _ rfl hfin, hbs, List.map_cons, hlb]
            simp [List.append_assoc]

/-- C9: under a strategy that always returns HOLD (0), any run that
completes leaves every symbol ledger exactly at its initial even-split
allocation — zero shares and startingCash divided by the number of symbols —
at every step, while each recorded benchmark value is the constant benchmark
share count times that day's benchmark close plus the constant benchmark
cash, so the benchmark value still moves with the benchmark price. -/
theorem hold_strategy_frame (inp : RunInput) (steps : List (Nat × Ticker))
    (herr : (runSteps holdStrategy inp steps).2 = none) :
    (∀ s ∈ inp.symbols, (runSteps holdStrategy inp steps).1.portfolio s =
      ⟨0, inp.starting_money / (inp.symbols.length : ℚ)⟩) ∧
    (runSteps holdStrategy inp steps).1.spyVals =
      (barSteps inp.data steps).map (fun p =>
        ((runSteps holdStrategy inp steps).1.spy.shares : ℚ) *
          (lookupBar inp.spyData p.1).getD 0 +
        (runSteps holdStrategy inp steps).1.spy.cash) := by
  have hi : (initState inp).2 = none := by
    cases hi2 : (initState inp).2 with
    | none => rfl
    | some e =>
      rw [runSteps_of_initErr holdStrategy inp steps e hi2, hi2] at herr
      exact Option.noConfusion herr
  obtain ⟨hport, hstrat, hspyv⟩ := initState_ok_shape inp hi
  rw [runSteps_of_initOk holdStrategy inp steps hi] at herr ⊢
  constructor
  · intro s hs
    rw [foldPairs_hold_portfolio, hport]
    simp only [if_pos hs]
  · rw [foldPairs_spyVals holdStrategy inp.data inp.spyData inp.symbols steps
      (initState inp) hi herr, hspyv, foldPairs_spy]
    rw [List.nil_append]

unseal Rat.add Rat.sub Rat.mul Rat.inv in
/-- Witness for C9: the concrete scenario run under the always-hold
strategy: AAPL stays at 0 shares and 10000 cash, while the three recorded
benchmark values equal 100 shares times each day's SPY close. -/
theorem hold_strategy_frame_witness :
    (runSteps holdStrategy inpA (allSteps inpA)).2 = none ∧
    ((∀ s ∈ inpA.symbols,
        (runSteps holdStrategy inpA (allSteps inpA)).1.portfolio s =
          ⟨0, inpA.starting_money / (inpA.symbols.length : ℚ)⟩) ∧
      (runSteps holdStrategy inpA (allSteps inpA)).1.spyVals =
        (barSteps inpA.data (allSteps inpA)).map (fun p =>
          ((runSteps holdStrategy inpA (allSteps inpA)).1.spy.shares : ℚ) *
            (lookupBar inpA.spyData p.1).getD 0 +
          (runSteps holdStrategy inpA (allSteps inpA)).1.spy.cash)) :=
  ⟨by rfl, hold_strategy_frame inpA (allSteps inpA) (by rfl)⟩

/-- When every probed calendar day is missing from a non-empty SPY table,
the scan walks its probes to exhaustion and raises the
ValueError("No SPY data found"). -/
theorem spyScanAux_all_missing (spyData : List (Nat × ℚ))
    (dateRange : List Nat)
    (hnone : ∀ d ∈ dateRange, lookupBar spyData d = none) :
    ∀ fuel i, fuel + i = spyData.length → 0 < fuel →
      spyScanAux spyData dateRange i fuel = Except.error RunError.noSpyData := by
  intro fuel
  induction fuel with
  | zero => intro i _ h; exact absurd h (lt_irrefl 0)
  | succ f ihf =>
    intro i hlen _
    have hprobe : (dateRange[i]? >>= lookupBar spyData) = none := by
      cases hd : dateRange[i]? with
      | none => rfl
      | some d =>
        have hdm : d ∈ dateRange := List.getElem?_mem hd
        simp [hnone d hdm]
    unfold spyScanAux
    rw [hprobe]
    by_cases hi : i + 1 = spyData.length
    · rw [if_pos hi]
    · rw [if_neg hi]
      exact ihf (i + 1) (by omega) (by omega)

/-- The whole scan fails with the SPY ValueError when the SPY table is
non-empty but no calendar day of the range has a SPY close. -/
theorem spyScan_all_missing (spyData : List (Nat × ℚ))
    (dateRange : List Nat) (hne : spyData ≠ [])
    (hnone : ∀ d ∈ dateRange, lookupBar spyData d = none) :
    spyScan spyData dateRange = Except.error RunError.noSpyData := by
  unfold spyScan
  exact spyScanAux_all_missing spyData dateRange hnone spyData.length 0
    (by omega) (List.length_pos.mpr hne)

/-- A failed scan propagates as the exception of the whole initialization. -/
theorem initState_of_scanErr (inp : RunInput) (e : RunError)
    (hsym : inp.symbols ≠ []) (hdata : inp.data ≠ [])
    (hscan : spyScan inp.spyData inp.dateRange = Except.error e) :
    (initState inp).2 = some e := by
  obtain ⟨sm, syms, dr, dat, spd⟩ := inp
  cases syms with
  | nil => simp at hsym
  | cons a l =>
    cases dat with
    | nil => simp at hdata
    | cons b m =>
      dsimp only [initState]
      dsimp only at hscan
      rw [hscan]

/-- C5 (amended): with a non-empty symbol list and non-empty trading data,
if the SPY table is non-empty and no calendar day of the range carries a SPY
close then the run fails with the BenchmarkUnavailableError; and whenever
the scan does find a first close c0, exactly floor(benchmarkCash / c0)
shares are purchased, their cost deducted, and the remainder kept as cash.
With an EMPTY SPY table the run instead fails with a TypeError (see the
counterexample). -/
theorem benchmark_unavailable_error (strategy : Strategy) (inp : RunInput)
    (steps : List (Nat × Ticker))
    (hsym : inp.symbols ≠ []) (hdata : inp.data ≠ []) :
    (inp.spyData ≠ [] →
      (∀ d ∈ inp.dateRange, lookupBar inp.spyData d = none) →
      (runSteps strategy inp steps).2 = some RunError.noSpyData) ∧
    (∀ c0 : ℚ, spyScan inp.spyData inp.dateRange = Except.ok (some c0) →
      c0 ≠ 0 →
      (runSteps strategy inp steps).1.spy =
        ⟨Rat.floor (inp.starting_money / c0),
         inp.starting_money -
           (Rat.floor (inp.starting_money / c0) : ℚ) * c0⟩) := by
  constructor
  · intro hne hnone
    have hscan := spyScan_all_missing inp.spyData inp.dateRange hne hnone
    have hinit := initState_of_scanErr inp RunError.noSpyData hsym hdata hscan
    rw [runSteps_of_initErr strategy inp steps RunError.noSpyData hinit]
    exact hinit
  · intro c0 hscan hc0
    obtain ⟨hok, hspy⟩ := initState_ok_spy inp c0 hsym hdata hscan hc0
    rw [runSteps_of_initOk strategy inp steps hok, foldPairs_spy]
    exact hspy

unseal Rat.add Rat.sub Rat.mul Rat.inv in
/-- Counterexample to C5 as stated: no benchmark close exists on any
business day of the range (the table is empty), yet the run fails with the
TypeError of cash // None, not with the BenchmarkUnavailableError. -/
theorem benchmark_unavailable_error_cex :
    (∀ d ∈ inpSpyEmpty.dateRange, lookupBar inpSpyEmpty.spyData d = none) ∧
    (run smaStrat inpSpyEmpty).2 = some RunError.typeMismatch ∧
    (run smaStrat inpSpyEmpty).2 ≠ some RunError.noSpyData := by decide

unseal Rat.add Rat.sub Rat.mul Rat.inv in
/-- Witness for C5: a non-empty SPY table with no close on any calendar day
makes the run fail with the BenchmarkUnavailableError. -/
theorem benchmark_unavailable_error_witness :
    (inpScanFail.symbols ≠ [] ∧ inpScanFail.data ≠ []) ∧
    ((inpScanFail.spyData ≠ [] →
      (∀ d ∈ inpScanFail.dateRange, lookupBar inpScanFail.spyData d = none) →
      (runSteps smaStrat inpScanFail (allSteps inpScanFail)).2 =
        some RunError.noSpyData) ∧
    (∀ c0 : ℚ, spyScan inpScanFail.spyData inpScanFail.dateRange =
        Except.ok (some c0) → c0 ≠ 0 →
      (runSteps smaStrat inpScanFail (allSteps inpScanFail)).1.spy =
        ⟨Rat.floor (inpScanFail.starting_money / c0),
         inpScanFail.starting_money -
           (Rat.floor (inpScanFail.starting_money / c0) : ℚ) * c0⟩)) :=
  ⟨⟨by decide, by decide⟩,
   benchmark_unavailable_error smaStrat inpScanFail (allSteps inpScanFail)
     (by decide) (by decide)⟩

/-- C6 (amended): with a non-empty symbol list, a run whose price provider
returned no rows fails with the DataUnavailableError before any simulation
step: both result sequences stay empty, every symbol ledger is exactly its
initial even-split allocation, and the benchmark is never purchased.  With
an EMPTY symbol list the run instead fails earlier with the
ZeroDivisionError of the even split (see the counterexample). -/
theorem data_unavailable_error (strategy : Strategy) (inp : RunInput)
    (hsym : inp.symbols ≠ []) (hdata : inp.data = []) :
    (run strategy inp).2 = some RunError.noData ∧
    (run strategy inp).1.stratVals = [] ∧
    (run strategy inp).1.spyVals = [] ∧
    (∀ s ∈ inp.symbols, (run strategy inp).1.portfolio s =
      ⟨0, inp.starting_money / (inp.symbols.length : ℚ)⟩) ∧
    (run strategy inp).1.spy = ⟨0, inp.starting_money⟩ := by
  have hinit : initState inp =
      ({ initSelf inp.starting_money with
          portfolio := fun s =>
            if s ∈ inp.symbols then
              ⟨0, inp.starting_money / (inp.symbols.length : ℚ)⟩
            else ⟨0, 0⟩ }, some RunError.noData) := by
    obtain ⟨sm, syms, dr, dat, spd⟩ := inp
    cases syms with
    | nil => simp at hsym
    | cons a l =>
      dsimp only at hdata
      subst hdata
      rfl
  have hrs : runSteps strategy inp (allSteps inp) = initState inp :=
    runSteps_of_initErr strategy inp (allSteps inp) RunError.noData
      (by rw [hinit])
  have hrun : run strategy inp = initState inp := by
    simp only [run]
    rw [hrs, hinit]
  rw [hrun, hinit]
  refine ⟨rfl, rfl, rfl, ?_, rfl⟩
  intro s hs
  simp only [if_pos hs]

unseal Rat.add Rat.sub Rat.mul Rat.inv in
/-- Counterexample to C6 as stated: the provider returned no rows, yet with
an empty symbol list the run dies in the even split with a
ZeroDivisionError before the empty-data check is ever reached. -/
theorem data_unavailable_error_cex :
    inpNoSymbols.data = [] ∧
    (run smaStrat inpNoSymbols).2 = some RunError.divByZero ∧
    (run smaStrat inpNoSymbols).2 ≠ some RunError.noData := by decide

unseal Rat.add Rat.sub Rat.mul Rat.inv in
/-- Witness for C6: a one-symbol run with no price rows fails with the
DataUnavailableError, leaving the even split and empty results. -/
theorem data_unavailable_error_witness :
    (inpNoRows.symbols ≠ [] ∧ inpNoRows.data = []) ∧
    ((run smaStrat inpNoRows).2 = some RunError.noData ∧
    (run smaStrat inpNoRows).1.stratVals = [] ∧
    (run smaStrat inpNoRows).1.spyVals = [] ∧
    (∀ s ∈ inpNoRows.symbols, (run smaStrat inpNoRows).1.portfolio s =
      ⟨0, inpNoRows.starting_money / (inpNoRows.symbols.length : ℚ)⟩) ∧
    (run smaStrat inpNoRows).1.spy = ⟨0, inpNoRows.starting_money⟩) :=
  ⟨⟨by decide, by decide⟩,
   data_unavailable_error smaStrat inpNoRows (by decide) (by decide)⟩

unseal Rat.add Rat.sub Rat.mul Rat.inv in
/-- C1 (code bug): the engine hands the strategy the symbol's FULL fetched
history, so a later day's close changes an earlier day's decision.  The two
inputs here agree on every bar dated at or before day 1 (and on calendar,
symbols, starting cash and benchmark data), differing only in the day-2
close, yet the recorded strategy values of days 0 and 1 already differ:
under no-lookahead they would be identical. -/
theorem lookahead_influences_decision :
    inpA.starting_money = inpB.starting_money ∧
    inpA.symbols = inpB.symbols ∧
    inpA.dateRange = inpB.dateRange ∧
    inpA.spyData = inpB.spyData ∧
    (∀ r ∈ inpA.data, r.2.1 ≤ 1 → r ∈ inpB.data) ∧
    (∀ r ∈ inpB.data, r.2.1 ≤ 1 → r ∈ inpA.data) ∧
    (run smaStrat inpA).1.stratVals.take 2 = [10000, 10000] ∧
    (run smaStrat inpB).1.stratVals.take 2 = [10000, 11000] := by decide

unseal Rat.add Rat.sub Rat.mul Rat.inv in
/-- C2 (code bug): on the spec's concrete scenario the code produces the
strategy value series [10000, 10000, 10000] — the full-history decision is
SELL on all three days — while the spec-side no-lookahead engine produces
the claimed [10000, 10000, 8200]. -/
theorem scenario_produces_flat_series :
    (run smaStrat inpA).1.stratVals = [10000, 10000, 10000] ∧
    (run smaStrat inpA).2 = none ∧
    (runStepsSpec smaStrat inpA (allSteps inpA)).1.stratVals =
      [10000, 10000, 8200] ∧
    (runStepsSpec smaStrat inpA (allSteps inpA)).2 = none := by decide

unseal Rat.add Rat.sub Rat.mul Rat.inv in
/-- C10: when a traded symbol has a bar on a day the benchmark lacks one,
the run aborts with the KeyError of the per-step benchmark valuation
lookup: the day-1 trade has already been applied (the ledger moved from 100
shares and 50 cash to 102 shares and 0 cash) and no valuation pair is
appended for that step (both series keep exactly the single day-0 entry). -/
theorem benchmark_gap_aborts_run :
    lookupClose inpGap.data "AAPL" 1 = some 25 ∧
    lookupBar inpGap.spyData 1 = none ∧
    (run buyStrategy inpGap).2 = some RunError.lookupFailure ∧
    (run buyStrategy inpGap).1.portfolio "AAPL" = ⟨102, 0⟩ ∧
    (run buyStrategy inpGap).1.stratVals = [10050] ∧
    (run buyStrategy inpGap).1.spyVals = [10050] := by decide
